import Mathlib

/-!
Verification development for the VisionLabel image-annotation pipeline
(`app.py`).  The Python source is shallowly embedded: PIL images become a
mode-tagged pixel grid, PIL library calls used by the source
(`ImageOps.exif_transpose`, `Image.convert("RGB")`, `Image.paste` with an
alpha mask) are modelled by executable Lean functions reproducing PIL's
documented semantics, floats become rationals, and the I/O performed by the
`upload` route is captured as an explicit event trace (file writes and the
single remote-detection call).
-/

namespace VisionLabel

/-! ## Image model

A PIL image is a mode tag, a row-major pixel grid, and an optional EXIF
orientation tag (EXIF tag 274).  The modes modelled are the ones reachable
for the accepted inputs (PNG/JPEG): `RGB`, `RGBA`, `LA` (grayscale with
alpha) and `L` (grayscale). -/

inductive PMode
  | RGB
  | RGBA
  | LA
  | L
deriving DecidableEq

inductive Pix
  | rgb (r g b : Nat)
  | rgba (r g b a : Nat)
  | la (v a : Nat)
  | gray (v : Nat)
deriving DecidableEq

structure PImage where
  mode : PMode
  px : List (List Pix)
  exifOrient : Option Nat
deriving DecidableEq

def PImage.width (img : PImage) : Nat :=
  (img.px.head?.getD []).length

def PImage.height (img : PImage) : Nat :=
  img.px.length

/-- All pixels of the grid, as a flat list (row-major). -/
def allPix (img : PImage) : List Pix :=
  img.px.flatten

/-- The mode a pixel value belongs to. -/
def Pix.kindOf : Pix → PMode
  | .rgb _ _ _ => .RGB
  | .rgba _ _ _ _ => .RGBA
  | .la _ _ => .LA
  | .gray _ => .L

/-- Well-formedness: every pixel of the grid matches the image's mode. -/
def ModeOk (img : PImage) : Prop :=
  ∀ row ∈ img.px, ∀ p ∈ row, p.kindOf = img.mode

/-- Rectangularity: every row has the width of the first row. -/
def Rect (img : PImage) : Prop :=
  ∀ row ∈ img.px, row.length = img.width

/-- Alpha value of a pixel, when its mode carries one. -/
def Pix.alphaVal : Pix → Option Nat
  | .rgba _ _ _ a => some a
  | .la _ a => some a
  | _ => none

/-- Whether a color mode carries transparency. -/
def carriesTransparency : PMode → Bool
  | .RGBA => true
  | .LA => true
  | _ => false

/-! ### EXIF orientation (`ImageOps.exif_transpose`)

PIL maps orientation tags 2..8 to the transpose operations below and
deletes the tag from the result; any other tag value (or no tag) leaves
the image untouched. -/

/-- Column extraction: the grid transposed (width taken from the first
row, as for a rectangular grid). -/
def transposeGrid (rows : List (List Pix)) : List (List Pix) :=
  (List.range (rows.head?.getD []).length).map
    (fun j => rows.filterMap (fun r => r.get? j))

/-- Pixel-grid effect of PIL's transpose methods, keyed by the EXIF
orientation tag that selects them in `ImageOps.exif_transpose`:
2 = flip left-right, 3 = rotate 180, 4 = flip top-bottom, 5 = transpose,
6 = rotate 270, 7 = transverse, 8 = rotate 90. -/
def applyExifOrientation (o : Nat) (rows : List (List Pix)) : List (List Pix) :=
  match o with
  | 2 => rows.map List.reverse
  | 3 => (rows.map List.reverse).reverse
  | 4 => rows.reverse
  | 5 => transposeGrid rows
  | 6 => (transposeGrid rows).map List.reverse
  | 7 => ((transposeGrid rows).map List.reverse).reverse
  | 8 => (transposeGrid rows).reverse
  | _ => rows

/-- `ImageOps.exif_transpose`: apply the orientation transform encoded in
the EXIF tag, removing the tag; images without a recognised tag are
returned unchanged. -/
def exif_transpose (img : PImage) : PImage :=
  match img.exifOrient with
  | some o =>
      if 2 ≤ o ∧ o ≤ 8 then
        { mode := img.mode
          px := applyExifOrientation o img.px
          exifOrient := none }
      else img
  | none => img

/-! ### Mode conversion (`Image.convert("RGB")`)

PIL's `convert` to RGB keeps RGB channels, duplicates the luminance
channel for grayscale modes, and *discards* any alpha channel without
compositing. -/

def Pix.toRGB : Pix → Pix
  | .rgb r g b => .rgb r g b
  | .rgba r g b _ => .rgb r g b
  | .la v _ => .rgb v v v
  | .gray v => .rgb v v v

def convertRGB (img : PImage) : PImage :=
  { mode := .RGB
    px := img.px.map (List.map Pix.toRGB)
    exifOrient := img.exifOrient }

/-! ### Alpha compositing (`bg.paste(img, mask=alpha)`)

PIL blends each channel as
`MULDIV255(bg, 255 - a) + MULDIV255(fg, a)` with
`MULDIV255(x, y) = ((x*y + 128) >> 8 + (x*y + 128)) >> 8`, the exact
integer approximation of `x*y/255`. -/

def mulDiv255 (x y : Nat) : Nat :=
  let t := x * y + 128
  (t / 256 + t) / 256

/-- One channel of the source composited over a white (255) background
with alpha `a`. -/
def blendOverWhite (a fg : Nat) : Nat :=
  mulDiv255 255 (255 - a) + mulDiv255 fg a

/-- Flatten one RGBA pixel against the white background; pixels of other
kinds are untouched (the source only pastes an RGBA image). -/
def flattenWhite : Pix → Pix
  | .rgba r g b a => .rgb (blendOverWhite a r) (blendOverWhite a g) (blendOverWhite a b)
  | p => p

/-- `bg = Image.new("RGB", size, (255,255,255)); bg.paste(img, mask=alpha)`:
a fresh RGB canvas (no EXIF metadata) with the source composited over it. -/
def flattenWhiteImage (img : PImage) : PImage :=
  { mode := .RGB
    px := img.px.map (List.map flattenWhite)
    exifOrient := none }

/-- `pil_auto_prepare`: auto-orient from EXIF, convert non-RGB/RGBA modes
to RGB, and flatten RGBA transparency against white. -/
def pil_auto_prepare (img0 : PImage) : PImage :=
  let img := exif_transpose img0
  let img := if img.mode ≠ .RGB ∧ img.mode ≠ .RGBA then convertRGB img else img
  if img.mode = .RGBA then flattenWhiteImage img else img

/-! ## File-type check and artifact naming -/

/-- The characters after the last `.` of a string
(`filename.rsplit(".", 1)[1]`). -/
def afterLastDot (s : String) : String :=
  ⟨(s.data.reverse.takeWhile (fun c => c ≠ '.')).reverse⟩

/-- `str.lower()` on the characters of a string. -/
def lowerAscii (s : String) : String :=
  ⟨s.data.map Char.toLower⟩

/-- `allowed_file`: the name contains a dot and its lower-cased extension
is one of png, jpg, jpeg. -/
def allowed_file (filename : String) : Bool :=
  filename.data.contains '.' &&
    (["png", "jpg", "jpeg"].contains (lowerAscii (afterLastDot filename)))

/-- Index of the last `.` in a character list, if any. -/
def lastDotIdx (cs : List Char) : Option Nat :=
  (cs.reverse.indexOf? '.').map (fun j => cs.length - 1 - j)

/-- `os.path.splitext`: split off the extension starting at the last dot,
unless every character before that dot is itself a dot (leading-dot
names such as `.bashrc` have no extension). -/
def splitext (s : String) : String × String :=
  match lastDotIdx s.data with
  | none => (s, "")
  | some i =>
      if (s.data.take i).all (fun c => c = '.') then (s, "")
      else (⟨s.data.take i⟩, ⟨s.data.drop i⟩)

/-- `unique_name`: sanitize the uploaded name, split off its extension and
join prefix, stem, UTC timestamp, random hex suffix and extension
(falling back to `.jpg`).  The ambient effects of the source — the
sanitizer (`secure_filename`), the wall clock (`strftime`) and the random
draw (`uuid4().hex[:8]`) — are passed in as parameters. -/
def unique_name (sanitize : String → String) (original_name : String)
    (pfx : String) (ts : String) (randHex : String) : String :=
  let base := sanitize original_name
  let stem := (splitext base).1
  let ext := (splitext base).2
  pfx ++ stem ++ "_" ++ ts ++ "_" ++ randHex ++ (if ext = "" then ".jpg" else ext)

/-! ## Detection data model

Rekognition's JSON becomes optional-field records: a field read with
`dict.get` is an `Option`, a field read with `dict[...]` (only `Name`) is
required.  Floats become rationals. -/

structure RBox where
  Left : Option ℚ
  Top : Option ℚ
  Width : Option ℚ
  Height : Option ℚ
deriving DecidableEq

structure RInstance where
  BoundingBox : Option RBox
  Confidence : Option ℚ
deriving DecidableEq

structure RLabel where
  Name : String
  Confidence : Option ℚ
  Instances : Option (List RInstance)
deriving DecidableEq

/-- The fixed label list produced by the dry-run branch of `upload`. -/
def dryRunLabels : List RLabel :=
  [{ Name := "SampleObject"
     Confidence := some (991/10)
     Instances := some
       [{ BoundingBox := some
            { Left := some (1/4), Top := some (1/4)
              Width := some (1/2), Height := some (1/2) }
          Confidence := some (991/10) }] }]

/-- The request sent to `rekognition.detect_labels`; the encoded image
bytes are represented by the image they encode. -/
structure RekRequest where
  Image : PImage
  MaxLabels : Nat
  MinConfidence : Nat
deriving DecidableEq

/-- A Rekognition response; `Labels` is read with `resp.get("Labels", [])`. -/
structure RekResponse where
  Labels : Option (List RLabel)
deriving DecidableEq

/-- The request built at the `detect_labels` call site:
`Image={"Bytes": image_bytes}, MaxLabels=10, MinConfidence=70`. -/
def remoteRequest (img : PImage) : RekRequest :=
  { Image := img, MaxLabels := 10, MinConfidence := 70 }

/-! ## Rendering

Drawing is modelled as the list of draw commands issued against the
`ImageDraw` surface.  Text measurement (`draw.textbbox`, which depends on
the loaded font) is a parameter `measure`; the font fallback chain never
affects which commands are issued, only the measured extents. -/

inductive DrawCmd
  | rect (xy : ℚ × ℚ × ℚ × ℚ) (outline : Nat × Nat × Nat) (strokeWidth : Nat)
  | fillRect (xy : ℚ × ℚ × ℚ × ℚ) (fill : Nat × Nat × Nat)
  | text (pos : ℚ × ℚ) (s : String) (fill : Nat × Nat × Nat)
deriving DecidableEq

/-- `draw_label_box`: outline the detection box, then a filled white
background sized to the measured text plus padding 4, top-clamped at
pixel row 0, then the text. -/
def draw_label_box (measure : String → ℚ × ℚ) (xy : ℚ × ℚ × ℚ × ℚ)
    (label_text : String) : List DrawCmd :=
  let left := xy.1
  let top := xy.2.1
  let right := xy.2.2.1
  let bottom := xy.2.2.2
  let text_w := (measure label_text).1
  let text_h := (measure label_text).2
  let pad : ℚ := 4
  let bg_left := left
  let bg_top := max (top - text_h - 2 * pad) 0
  let bg_right := left + text_w + 2 * pad
  let bg_bottom := bg_top + text_h + 2 * pad
  [ DrawCmd.rect (left, top, right, bottom) (255, 0, 0) 3,
    DrawCmd.fillRect (bg_left, bg_top, bg_right, bg_bottom) (255, 255, 255),
    DrawCmd.text (bg_left + pad, bg_top + pad) label_text (255, 0, 0) ]

/-- The pixel box computed in the rendering loop of `upload`:
each missing coordinate is read with `box.get(..., 0)`. -/
def toPixelBox (w h : ℚ) (box : RBox) : ℚ × ℚ × ℚ × ℚ :=
  let left := w * box.Left.getD 0
  let top := h * box.Top.getD 0
  let bw := w * box.Width.getD 0
  let bh := h * box.Height.getD 0
  (left, top, left + bw, top + bh)

/-- Round-half-to-even on rationals, the semantics of Python's `round`. -/
def roundHalfEven (q : ℚ) : ℤ :=
  let f := Rat.floor q
  let frac := q - f
  if frac < 1/2 then f
  else if 1/2 < frac then f + 1
  else if f % 2 = 0 then f else f + 1

/-- One-decimal rendering of a confidence, the image of
`round(x, 1)` under an f-string. -/
def oneDecimal (q : ℚ) : String :=
  let n := roundHalfEven (10 * q)
  toString (n / 10) ++ ("." ++ toString (n % 10).natAbs)

/-- The label caption `f"{label['Name']} ({round(label.get('Confidence', 0.0), 1)}%)"`. -/
def labelText (lbl : RLabel) : String :=
  lbl.Name ++ (" (" ++ oneDecimal (lbl.Confidence.getD 0) ++ "%)")

/-- Commands issued for one instance of a label: instances without a
bounding box are skipped (`continue`). -/
def instCmds (measure : String → ℚ × ℚ) (w h : ℚ) (lbl : RLabel)
    (inst : RInstance) : List DrawCmd :=
  match inst.BoundingBox with
  | none => []
  | some box => draw_label_box measure (toPixelBox w h box) (labelText lbl)

/-- The full rendering loop over a detection result
(`label.get("Instances", [])` for each label). -/
def renderCmds (measure : String → ℚ × ℚ) (w h : ℚ)
    (labels : List RLabel) : List DrawCmd :=
  labels.flatMap (fun lbl =>
    (lbl.Instances.getD []).flatMap (fun inst => instCmds measure w h lbl inst))

/-! ## The upload orchestrator -/

/-- Result of the `upload` route, one constructor per `return`. -/
inductive UploadResult
  | noFile
  | noName
  | badType
  | processingError
  | rekError
  | ok (original labeled : String) (labels : List RLabel)
deriving DecidableEq

/-- Externally visible effects of `upload`, in program order: a file write
(name and content, the content being the image plus the overlays drawn on
it) or the remote `detect_labels` call. -/
inductive Event
  | write (name : String) (content : PImage × List DrawCmd)
  | rekCall (req : RekRequest)
deriving DecidableEq

/-- Ambient inputs of one `upload` request: configuration, collaborating
services, the two effectful draws made by `unique_name` (shared timestamp
`ts`, random suffixes `rand1`/`rand2`) and the decoded upload
(`none` when `Image.open`/`pil_auto_prepare`/`save` raises). -/
structure Ctx where
  dryRun : Bool
  rek : RekRequest → Except String RekResponse
  measure : String → ℚ × ℚ
  sanitize : String → String
  ts : String
  rand1 : String
  rand2 : String
  fileProvided : Bool
  filename : String
  decoded : Option PImage

/-- The `upload` route, returning its result together with the trace of
external effects it performed. -/
def upload (c : Ctx) : UploadResult × List Event :=
  if ¬ c.fileProvided then (.noFile, [])
  else if c.filename = "" then (.noName, [])
  else if ¬ allowed_file c.filename then (.badType, [])
  else
    let original_name := unique_name c.sanitize c.filename "" c.ts c.rand1
    let labeled_name := unique_name c.sanitize c.filename "labeled_" c.ts c.rand2
    match c.decoded with
    | none => (.processingError, [])
    | some img0 =>
        let pil := pil_auto_prepare img0
        let origEv := Event.write original_name (pil, [])
        let finish := fun (labels : List RLabel) (evs : List Event) =>
          let cmds := renderCmds c.measure (pil.width : ℚ) (pil.height : ℚ) labels
          ((UploadResult.ok original_name labeled_name labels),
            evs ++ [Event.write labeled_name (pil, cmds)])
        if c.dryRun then finish dryRunLabels [origEv]
        else
          let req := remoteRequest pil
          match c.rek req with
          | .error _ => (.rekError, [origEv, .rekCall req])
          | .ok resp => finish (resp.Labels.getD []) [origEv, .rekCall req]

/-! ## Helper lemmas about the image model -/

theorem exif_transpose_mode (img : PImage) :
    (exif_transpose img).mode = img.mode := by
  unfold exif_transpose
  cases img.exifOrient with
  | none => rfl
  | some o =>
      dsimp only
      split <;> rfl

theorem exif_transpose_idem (img : PImage) :
    exif_transpose (exif_transpose img) = exif_transpose img := by
  cases h : img.exifOrient with
  | none => simp [exif_transpose, h]
  | some o =>
      by_cases ho : 2 ≤ o ∧ o ≤ 8
      · simp [exif_transpose, h, ho]
      · simp [exif_transpose, h, ho]

theorem prepare_rgb (img : PImage) (h : img.mode = .RGB) :
    pil_auto_prepare img = exif_transpose img := by
  have hm : (exif_transpose img).mode = .RGB := by
    rw [exif_transpose_mode, h]
  simp [pil_auto_prepare, hm]

theorem prepare_rgba (img : PImage) (h : img.mode = .RGBA) :
    pil_auto_prepare img = flattenWhiteImage (exif_transpose img) := by
  have hm : (exif_transpose img).mode = .RGBA := by
    rw [exif_transpose_mode, h]
  simp [pil_auto_prepare, hm]

theorem mem_flatten_map_reverse {rows : List (List Pix)} {p : Pix}
    (hp : p ∈ rows.flatten) : p ∈ (rows.map List.reverse).flatten := by
  rw [List.mem_flatten] at hp ⊢
  obtain ⟨r, hr, hpr⟩ := hp
  exact ⟨r.reverse, List.mem_map.mpr ⟨r, hr, rfl⟩, List.mem_reverse.mpr hpr⟩

theorem mem_flatten_reverse {rows : List (List Pix)} {p : Pix}
    (hp : p ∈ rows.flatten) : p ∈ rows.reverse.flatten := by
  rw [List.mem_flatten] at hp ⊢
  obtain ⟨r, hr, hpr⟩ := hp
  exact ⟨r, List.mem_reverse.mpr hr, hpr⟩

theorem mem_flatten_transposeGrid {rows : List (List Pix)} {p : Pix}
    (hrect : ∀ r ∈ rows, r.length = (rows.head?.getD []).length)
    (hp : p ∈ rows.flatten) : p ∈ (transposeGrid rows).flatten := by
  rw [List.mem_flatten] at hp ⊢
  obtain ⟨r, hr, hpr⟩ := hp
  obtain ⟨j, hj, hget⟩ := List.mem_iff_getElem.mp hpr
  refine ⟨rows.filterMap (fun row => row.get? j), ?_, ?_⟩
  · exact List.mem_map.mpr
      ⟨j, List.mem_range.mpr (hrect r hr ▸ hj), rfl⟩
  · refine List.mem_filterMap.mpr ⟨r, hr, ?_⟩
    rw [List.get?_eq_getElem?, List.getElem?_eq_getElem hj, hget]

theorem mem_flatten_applyExif {o : Nat} {rows : List (List Pix)} {p : Pix}
    (hrect : ∀ r ∈ rows, r.length = (rows.head?.getD []).length)
    (hp : p ∈ rows.flatten) :
    p ∈ (applyExifOrientation o rows).flatten := by
  match o with
  | 2 => exact mem_flatten_map_reverse hp
  | 3 => exact mem_flatten_reverse (mem_flatten_map_reverse hp)
  | 4 => exact mem_flatten_reverse hp
  | 5 => exact mem_flatten_transposeGrid hrect hp
  | 6 => exact mem_flatten_map_reverse (mem_flatten_transposeGrid hrect hp)
  | 7 => exact mem_flatten_reverse (mem_flatten_map_reverse (mem_flatten_transposeGrid hrect hp))
  | 8 => exact mem_flatten_reverse (mem_flatten_transposeGrid hrect hp)
  | 0 => exact hp
  | 1 => exact hp
  | (n+9) => exact hp

theorem mem_allPix_exif_transpose {img : PImage} {p : Pix}
    (hrect : Rect img) (hp : p ∈ allPix img) :
    p ∈ allPix (exif_transpose img) := by
  unfold exif_transpose
  cases img.exifOrient with
  | none => exact hp
  | some o =>
      dsimp only
      split
      · exact mem_flatten_applyExif hrect hp
      · exact hp

theorem mem_flatten_map_reverse_rev {rows : List (List Pix)} {p : Pix}
    (hp : p ∈ (rows.map List.reverse).flatten) : p ∈ rows.flatten := by
  rw [List.mem_flatten] at hp ⊢
  obtain ⟨r, hr, hpr⟩ := hp
  obtain ⟨r0, hr0, rfl⟩ := List.mem_map.mp hr
  exact ⟨r0, hr0, List.mem_reverse.mp hpr⟩

theorem mem_flatten_reverse_rev {rows : List (List Pix)} {p : Pix}
    (hp : p ∈ rows.reverse.flatten) : p ∈ rows.flatten := by
  rw [List.mem_flatten] at hp ⊢
  obtain ⟨r, hr, hpr⟩ := hp
  exact ⟨r, List.mem_reverse.mp hr, hpr⟩

theorem mem_flatten_transposeGrid_rev {rows : List (List Pix)} {p : Pix}
    (hp : p ∈ (transposeGrid rows).flatten) : p ∈ rows.flatten := by
  rw [List.mem_flatten] at hp ⊢
  obtain ⟨col, hcol, hpcol⟩ := hp
  obtain ⟨j, _, rfl⟩ := List.mem_map.mp hcol
  obtain ⟨r, hr, hget⟩ := List.mem_filterMap.mp hpcol
  exact ⟨r, hr, List.get?_mem hget⟩

theorem mem_flatten_applyExif_rev {o : Nat} {rows : List (List Pix)} {p : Pix}
    (hp : p ∈ (applyExifOrientation o rows).flatten) : p ∈ rows.flatten := by
  match o with
  | 2 => exact mem_flatten_map_reverse_rev hp
  | 3 => exact mem_flatten_map_reverse_rev (mem_flatten_reverse_rev hp)
  | 4 => exact mem_flatten_reverse_rev hp
  | 5 => exact mem_flatten_transposeGrid_rev hp
  | 6 => exact mem_flatten_transposeGrid_rev (mem_flatten_map_reverse_rev hp)
  | 7 => exact mem_flatten_transposeGrid_rev (mem_flatten_map_reverse_rev (mem_flatten_reverse_rev hp))
  | 8 => exact mem_flatten_transposeGrid_rev (mem_flatten_reverse_rev hp)
  | 0 => exact hp
  | 1 => exact hp
  | (n+9) => exact hp

theorem mem_allPix_exif_transpose_rev {img : PImage} {p : Pix}
    (hp : p ∈ allPix (exif_transpose img)) : p ∈ allPix img := by
  unfold exif_transpose at hp
  cases h : img.exifOrient with
  | none => rw [h] at hp; exact hp
  | some o =>
      rw [h] at hp
      dsimp only at hp
      by_cases ho : 2 ≤ o ∧ o ≤ 8
      · rw [if_pos ho] at hp
        exact mem_flatten_applyExif_rev hp
      · rw [if_neg ho] at hp
        exact hp

/-! ## Theorems -/

/-- C1: the geometry mapping is the pure arithmetic
`left = W*l`, `top = H*t`, `right = left + W*w`, `bottom = top + H*h`,
with no clamping for out-of-range fractions; in particular the box
(0.25, 0.25, 0.5, 0.5) on an 800×600 image maps to (200, 150, 600, 450),
and a box with negative and >1 fractions passes through unchanged. -/
theorem geometry_toPixelBox :
    (∀ (W H l t wd ht : ℚ),
      toPixelBox W H ⟨some l, some t, some wd, some ht⟩
        = (W * l, H * t, W * l + W * wd, H * t + H * ht))
    ∧ toPixelBox 800 600 ⟨some (1/4), some (1/4), some (1/2), some (1/2)⟩
        = (200, 150, 600, 450)
    ∧ toPixelBox 100 100 ⟨some (-1/2), some 2, some 3, some (-1)⟩
        = (-50, 200, 250, 100) := by
  refine ⟨fun W H l t wd ht => ?_, ?_, ?_⟩ <;> norm_num [toPixelBox]

/-- C7: `unique_name` yields exactly
`{prefix}{sanitizedStem}_{timestamp}_{randomHex}{ext-or-.jpg}`, and two
calls with the same filename, prefix and timestamp but different random
suffixes yield different identifiers. -/
theorem unique_name_spec :
    (∀ (sanitize : String → String) (name pfx ts r : String),
      unique_name sanitize name pfx ts r =
        pfx ++ (splitext (sanitize name)).1 ++ "_" ++ ts ++ "_" ++ r ++
          (if (splitext (sanitize name)).2 = "" then ".jpg"
           else (splitext (sanitize name)).2))
    ∧ (∀ (sanitize : String → String) (name pfx ts r1 r2 : String),
      r1 ≠ r2 →
      unique_name sanitize name pfx ts r1 ≠ unique_name sanitize name pfx ts r2) := by
  constructor
  · intro sanitize name pfx ts r
    rfl
  · intro sanitize name pfx ts r1 r2 hne h
    refine hne ?_
    have h2 := congrArg String.data h
    simp only [unique_name, String.data_append, List.append_assoc] at h2
    exact String.ext (List.append_cancel_right (List.append_cancel_left
      (List.append_cancel_left (List.append_cancel_left
        (List.append_cancel_left (List.append_cancel_left h2))))))

/-- C9: the label background is sized to the measured text plus fixed
padding 4 on each side, its top edge is `max (top - text_h - 2*pad) 0`
(clamped at row 0), its bottom edge equals the box's top whenever
`top ≥ text_h + 2*pad`, and its right and bottom edges are the unclamped
sums (independent of any canvas bound, so labels may overflow). -/
theorem label_background_geometry (measure : String → ℚ × ℚ)
    (left top right bottom tw th : ℚ) (txt : String)
    (hm : measure txt = (tw, th)) :
    draw_label_box measure (left, top, right, bottom) txt =
      [DrawCmd.rect (left, top, right, bottom) (255, 0, 0) 3,
       DrawCmd.fillRect
         (left, max (top - th - 8) 0, left + tw + 8, max (top - th - 8) 0 + th + 8)
         (255, 255, 255),
       DrawCmd.text (left + 4, max (top - th - 8) 0 + 4) txt (255, 0, 0)]
    ∧ (0 : ℚ) ≤ max (top - th - 8) 0
    ∧ (th + 8 ≤ top → max (top - th - 8) 0 + th + 8 = top) := by
  refine ⟨?_, le_max_right _ _, fun hge => ?_⟩
  · norm_num [draw_label_box, hm]
  · have h0 : (0 : ℚ) ≤ top - th - 8 := by linarith
    rw [max_eq_left h0]
    ring

/-- C10: the rendering loop tolerates malformed detection entries: an
instance without a bounding box issues no draw command, a label without
an instance list issues no draw command, each missing box coordinate is
read as 0, and a missing label confidence is rendered as `0.0` in the
caption. -/
theorem render_malformed_tolerant :
    (∀ (measure : String → ℚ × ℚ) (w h : ℚ) (lbl : RLabel) (inst : RInstance),
      inst.BoundingBox = none → instCmds measure w h lbl inst = [])
    ∧ (∀ (measure : String → ℚ × ℚ) (w h : ℚ) (name : String) (conf : Option ℚ),
      renderCmds measure w h [{ Name := name, Confidence := conf, Instances := none }] = [])
    ∧ (∀ (w h : ℚ) (ot ow oh : Option ℚ),
      toPixelBox w h ⟨none, ot, ow, oh⟩ = toPixelBox w h ⟨some 0, ot, ow, oh⟩)
    ∧ (∀ (w h : ℚ) (ol ow oh : Option ℚ),
      toPixelBox w h ⟨ol, none, ow, oh⟩ = toPixelBox w h ⟨ol, some 0, ow, oh⟩)
    ∧ (∀ (w h : ℚ) (ol ot oh : Option ℚ),
      toPixelBox w h ⟨ol, ot, none, oh⟩ = toPixelBox w h ⟨ol, ot, some 0, oh⟩)
    ∧ (∀ (w h : ℚ) (ol ot ow : Option ℚ),
      toPixelBox w h ⟨ol, ot, ow, none⟩ = toPixelBox w h ⟨ol, ot, ow, some 0⟩)
    ∧ (∀ (name : String) (insts : Option (List RInstance)),
      labelText { Name := name, Confidence := none, Instances := insts }
        = name ++ " (0.0%)") := by
  refine ⟨?_, ?_, ?_, ?_, ?_, ?_, ?_⟩
  · intro measure w h lbl inst hbox
    simp [instCmds, hbox]
  · intro measure w h name conf
    simp [renderCmds]
  · intro w h ot ow oh
    rfl
  · intro w h ol ow oh
    rfl
  · intro w h ol ot oh
    rfl
  · intro w h ol ot ow
    rfl
  · intro name insts
    have h0 : roundHalfEven (10 * ((none : Option ℚ).getD 0)) = 0 := by
      norm_num [roundHalfEven, Rat.floor_def']
    show name ++ (" (" ++ oneDecimal ((none : Option ℚ).getD 0) ++ "%)")
      = name ++ " (0.0%)"
    simp only [oneDecimal, h0]
    rfl

/-- C2: with the synthetic (dry-run) variant selected, `upload` never
fails after a successful decode and its detection result is exactly one
label "SampleObject" (confidence 99.1) with exactly one instance whose
box is (0.25, 0.25, 0.5, 0.5) at confidence 99.1, independent of the
decoded image. -/
theorem dry_run_detection_fixed (c : Ctx) (img : PImage)
    (hdry : c.dryRun = true)
    (hfile : c.fileProvided = true)
    (hname : c.filename ≠ "")
    (hallow : allowed_file c.filename = true)
    (hdec : c.decoded = some img) :
    upload c =
      (UploadResult.ok (unique_name c.sanitize c.filename "" c.ts c.rand1)
        (unique_name c.sanitize c.filename "labeled_" c.ts c.rand2)
        dryRunLabels,
       [Event.write (unique_name c.sanitize c.filename "" c.ts c.rand1)
          (pil_auto_prepare img, []),
        Event.write (unique_name c.sanitize c.filename "labeled_" c.ts c.rand2)
          (pil_auto_prepare img,
           renderCmds c.measure ((pil_auto_prepare img).width : ℚ)
             ((pil_auto_prepare img).height : ℚ) dryRunLabels)])
    ∧ dryRunLabels =
      [{ Name := "SampleObject"
         Confidence := some (991/10)
         Instances := some
           [{ BoundingBox := some
                { Left := some (1/4), Top := some (1/4)
                  Width := some (1/2), Height := some (1/2) }
              Confidence := some (991/10) }] }] := by
  refine ⟨?_, rfl⟩
  simp [upload, hdry, hfile, hname, hallow, hdec]

/-- C5: when the uploaded bytes fail to decode (for any accepted
filename), `upload` reports a processing error and performs no external
effect: no file write and no detection call. -/
theorem decode_failure_no_writes (c : Ctx)
    (hfile : c.fileProvided = true)
    (hname : c.filename ≠ "")
    (hallow : allowed_file c.filename = true)
    (hdec : c.decoded = none) :
    upload c = (UploadResult.processingError, []) := by
  simp [upload, hfile, hname, hallow, hdec]

/-- C6: when the remote detection call fails, the trace of `upload` is
exactly the write of the original normalized image followed by the
detection call: the original was persisted before detection ran, no
annotated artifact is written, and the result is an error. -/
theorem remote_failure_original_persisted (c : Ctx) (img : PImage) (e : String)
    (hdry : c.dryRun = false)
    (hfile : c.fileProvided = true)
    (hname : c.filename ≠ "")
    (hallow : allowed_file c.filename = true)
    (hdec : c.decoded = some img)
    (herr : c.rek (remoteRequest (pil_auto_prepare img)) = .error e) :
    upload c =
      (UploadResult.rekError,
       [Event.write (unique_name c.sanitize c.filename "" c.ts c.rand1)
          (pil_auto_prepare img, []),
        Event.rekCall (remoteRequest (pil_auto_prepare img))]) := by
  simp [upload, hdry, hfile, hname, hallow, hdec, herr]

/-- C8: on the remote path, the single detection request asks for at most
10 labels at minimum confidence 70, and the labels of a successful
response are passed into the result unchanged (defaulting to `[]` when
the response carries none). -/
theorem remote_request_parameters (c : Ctx) (img : PImage) (resp : RekResponse)
    (hdry : c.dryRun = false)
    (hfile : c.fileProvided = true)
    (hname : c.filename ≠ "")
    (hallow : allowed_file c.filename = true)
    (hdec : c.decoded = some img)
    (hok : c.rek (remoteRequest (pil_auto_prepare img)) = .ok resp) :
    (remoteRequest (pil_auto_prepare img)).MaxLabels = 10
    ∧ (remoteRequest (pil_auto_prepare img)).MinConfidence = 70
    ∧ upload c =
      (UploadResult.ok (unique_name c.sanitize c.filename "" c.ts c.rand1)
        (unique_name c.sanitize c.filename "labeled_" c.ts c.rand2)
        (resp.Labels.getD []),
       [Event.write (unique_name c.sanitize c.filename "" c.ts c.rand1)
          (pil_auto_prepare img, []),
        Event.rekCall (remoteRequest (pil_auto_prepare img)),
        Event.write (unique_name c.sanitize c.filename "labeled_" c.ts c.rand2)
          (pil_auto_prepare img,
           renderCmds c.measure ((pil_auto_prepare img).width : ℚ)
             ((pil_auto_prepare img).height : ℚ) (resp.Labels.getD []))]) := by
  refine ⟨rfl, rfl, ?_⟩
  simp [upload, hdry, hfile, hname, hallow, hdec, hok]

/-- C4: the Normalizer is idempotent on opaque 3-channel images:
for an RGB input, preparing the prepared image yields pixel-identical
output. -/
theorem normalizer_idempotent (img : PImage) (h : img.mode = .RGB) :
    pil_auto_prepare (pil_auto_prepare img) = pil_auto_prepare img := by
  have h1 : pil_auto_prepare img = exif_transpose img := prepare_rgb img h
  have h2 : (exif_transpose img).mode = .RGB := by
    rw [exif_transpose_mode, h]
  rw [h1, prepare_rgb _ h2, exif_transpose_idem]

/-- An RGB test image carrying an EXIF rotate-180 tag. -/
def rgbOriented : PImage :=
  { mode := .RGB
    px := [[Pix.rgb 1 2 3, Pix.rgb 4 5 6], [Pix.rgb 7 8 9, Pix.rgb 10 11 12]]
    exifOrient := some 3 }

/-- Witness for C4 at a concrete RGB image with an orientation tag. -/
theorem normalizer_idempotent_witness :
    pil_auto_prepare (pil_auto_prepare rgbOriented) = pil_auto_prepare rgbOriented :=
  normalizer_idempotent rgbOriented rfl

/-- C3 (amended): for an RGBA source, the Normalizer outputs an RGB image
with no transparent pixels, the output grid is the oriented source grid
flattened pixelwise against white, flattening sends every fully
transparent pixel to exactly (255,255,255), and every source pixel
survives orientation.  (For LA sources the code converts without
compositing; see the counterexample.) -/
theorem normalizer_rgba_flatten (img : PImage)
    (hmode : img.mode = .RGBA) (hrect : Rect img) (hok : ModeOk img) :
    (pil_auto_prepare img).mode = .RGB
    ∧ (∀ p ∈ allPix (pil_auto_prepare img), ∃ r g b, p = Pix.rgb r g b)
    ∧ (pil_auto_prepare img).px
        = (exif_transpose img).px.map (List.map flattenWhite)
    ∧ (∀ r g b, flattenWhite (Pix.rgba r g b 0) = Pix.rgb 255 255 255)
    ∧ (∀ p ∈ allPix img, p ∈ allPix (exif_transpose img)) := by
  have hprep : pil_auto_prepare img = flattenWhiteImage (exif_transpose img) :=
    prepare_rgba img hmode
  refine ⟨by rw [hprep]; rfl, ?_, by rw [hprep]; rfl, ?_, ?_⟩
  · intro p hp
    rw [hprep] at hp
    have hp' : p ∈ ((exif_transpose img).px.map (List.map flattenWhite)).flatten := hp
    rw [List.mem_flatten] at hp'
    obtain ⟨row, hrow, hprow⟩ := hp'
    obtain ⟨row0, hrow0, rfl⟩ := List.mem_map.mp hrow
    obtain ⟨q, hq, rfl⟩ := List.mem_map.mp hprow
    have hq1 : q ∈ allPix (exif_transpose img) :=
      List.mem_flatten.mpr ⟨row0, hrow0, hq⟩
    have hq2 : q ∈ allPix img := mem_allPix_exif_transpose_rev hq1
    obtain ⟨row1, hrow1, hqrow1⟩ := List.mem_flatten.mp hq2
    have hkind : q.kindOf = img.mode := hok row1 hrow1 q hqrow1
    rw [hmode] at hkind
    match q, hkind with
    | Pix.rgba r g b a, _ =>
        exact ⟨blendOverWhite a r, blendOverWhite a g, blendOverWhite a b, rfl⟩
  · intro r g b
    have hz : ∀ c : Nat, blendOverWhite 0 c = 255 := by
      intro c
      norm_num [blendOverWhite, mulDiv255]
    show Pix.rgb (blendOverWhite 0 r) (blendOverWhite 0 g) (blendOverWhite 0 b)
      = Pix.rgb 255 255 255
    rw [hz r, hz g, hz b]
  · intro p hp
    exact mem_allPix_exif_transpose hrect hp

/-- An RGBA test image: one fully transparent red pixel, one opaque
green pixel, with an EXIF flip tag. -/
def rgbaSample : PImage :=
  { mode := .RGBA
    px := [[Pix.rgba 200 0 0 0, Pix.rgba 0 200 0 255]]
    exifOrient := some 2 }

/-- Witness for the amended C3 at a concrete RGBA image. -/
theorem normalizer_rgba_flatten_witness :
    (pil_auto_prepare rgbaSample).mode = .RGB
    ∧ (∀ p ∈ allPix (pil_auto_prepare rgbaSample), ∃ r g b, p = Pix.rgb r g b)
    ∧ (pil_auto_prepare rgbaSample).px
        = (exif_transpose rgbaSample).px.map (List.map flattenWhite)
    ∧ (∀ r g b, flattenWhite (Pix.rgba r g b 0) = Pix.rgb 255 255 255)
    ∧ (∀ p ∈ allPix rgbaSample, p ∈ allPix (exif_transpose rgbaSample)) :=
  normalizer_rgba_flatten rgbaSample rfl
    (by simp only [Rect]; decide) (by simp only [ModeOk]; decide)

/-- A grayscale-plus-alpha (LA) source image whose single pixel is fully
transparent black. -/
def laTransparent : PImage :=
  { mode := .LA
    px := [[Pix.la 0 0]]
    exifOrient := none }

/-- C3 as stated is false: the LA color model carries transparency, the
source pixel is fully transparent, yet the normalized output pixel is
black, not the white background fill — `convert("RGB")` discards the
alpha channel without compositing. -/
theorem normalizer_transparency_cex :
    carriesTransparency laTransparent.mode = true
    ∧ (Pix.la 0 0).alphaVal = some 0
    ∧ Pix.la 0 0 ∈ allPix laTransparent
    ∧ pil_auto_prepare laTransparent
        = { mode := .RGB, px := [[Pix.rgb 0 0 0]], exifOrient := none }
    ∧ Pix.rgb 255 255 255 ∉ allPix (pil_auto_prepare laTransparent) := by
  decide

/-! ## Concrete instances for the witnesses -/

/-- A small opaque RGB test image. -/
def rgbTest : PImage :=
  { mode := .RGB, px := [[Pix.rgb 1 2 3]], exifOrient := none }

/-- A concrete response from the remote service. -/
def respTest : RekResponse :=
  { Labels := some [{ Name := "Cat", Confidence := some 95, Instances := some [] }] }

def ctxDry : Ctx :=
  { dryRun := true
    rek := fun _ => Except.error "unreachable"
    measure := fun _ => (50, 12)
    sanitize := fun s => s
    ts := "20250101-000000"
    rand1 := "aaaaaaaa"
    rand2 := "bbbbbbbb"
    fileProvided := true
    filename := "photo.png"
    decoded := some rgbTest }

def ctxDecodeFail : Ctx :=
  { ctxDry with decoded := none, filename := "garbage.jpg" }

def ctxRekFail : Ctx :=
  { ctxDry with dryRun := false, rek := fun _ => Except.error "service down" }

def ctxRekOk : Ctx :=
  { ctxDry with dryRun := false, rek := fun _ => Except.ok respTest }

/-- Witness for C2 at a concrete request. -/
theorem dry_run_detection_fixed_witness :
    upload ctxDry =
      (UploadResult.ok (unique_name ctxDry.sanitize ctxDry.filename "" ctxDry.ts ctxDry.rand1)
        (unique_name ctxDry.sanitize ctxDry.filename "labeled_" ctxDry.ts ctxDry.rand2)
        dryRunLabels,
       [Event.write (unique_name ctxDry.sanitize ctxDry.filename "" ctxDry.ts ctxDry.rand1)
          (pil_auto_prepare rgbTest, []),
        Event.write (unique_name ctxDry.sanitize ctxDry.filename "labeled_" ctxDry.ts ctxDry.rand2)
          (pil_auto_prepare rgbTest,
           renderCmds ctxDry.measure ((pil_auto_prepare rgbTest).width : ℚ)
             ((pil_auto_prepare rgbTest).height : ℚ) dryRunLabels)])
    ∧ dryRunLabels =
      [{ Name := "SampleObject"
         Confidence := some (991/10)
         Instances := some
           [{ BoundingBox := some
                { Left := some (1/4), Top := some (1/4)
                  Width := some (1/2), Height := some (1/2) }
              Confidence := some (991/10) }] }] :=
  dry_run_detection_fixed ctxDry rgbTest rfl rfl (by decide) (by decide) rfl

/-- Witness for C5 at a concrete request with undecodable bytes. -/
theorem decode_failure_no_writes_witness :
    upload ctxDecodeFail = (UploadResult.processingError, []) :=
  decode_failure_no_writes ctxDecodeFail rfl (by decide) (by decide) rfl

/-- Witness for C6 at a concrete request whose remote call fails. -/
theorem remote_failure_original_persisted_witness :
    upload ctxRekFail =
      (UploadResult.rekError,
       [Event.write (unique_name ctxRekFail.sanitize ctxRekFail.filename "" ctxRekFail.ts ctxRekFail.rand1)
          (pil_auto_prepare rgbTest, []),
        Event.rekCall (remoteRequest (pil_auto_prepare rgbTest))]) :=
  remote_failure_original_persisted ctxRekFail rgbTest "service down"
    rfl rfl (by decide) (by decide) rfl rfl

/-- Witness for C8 at a concrete request whose remote call succeeds. -/
theorem remote_request_parameters_witness :
    (remoteRequest (pil_auto_prepare rgbTest)).MaxLabels = 10
    ∧ (remoteRequest (pil_auto_prepare rgbTest)).MinConfidence = 70
    ∧ upload ctxRekOk =
      (UploadResult.ok (unique_name ctxRekOk.sanitize ctxRekOk.filename "" ctxRekOk.ts ctxRekOk.rand1)
        (unique_name ctxRekOk.sanitize ctxRekOk.filename "labeled_" ctxRekOk.ts ctxRekOk.rand2)
        (respTest.Labels.getD []),
       [Event.write (unique_name ctxRekOk.sanitize ctxRekOk.filename "" ctxRekOk.ts ctxRekOk.rand1)
          (pil_auto_prepare rgbTest, []),
        Event.rekCall (remoteRequest (pil_auto_prepare rgbTest)),
        Event.write (unique_name ctxRekOk.sanitize ctxRekOk.filename "labeled_" ctxRekOk.ts ctxRekOk.rand2)
          (pil_auto_prepare rgbTest,
           renderCmds ctxRekOk.measure ((pil_auto_prepare rgbTest).width : ℚ)
             ((pil_auto_prepare rgbTest).height : ℚ) (respTest.Labels.getD []))]) :=
  remote_request_parameters ctxRekOk rgbTest respTest
    rfl rfl (by decide) (by decide) rfl rfl

/-- Witness for C7 at concrete names and suffixes. -/
theorem unique_name_spec_witness :
    unique_name (fun s => s) "photo.png" "" "20250101-000000" "aaaaaaaa" =
      "" ++ (splitext ((fun s : String => s) "photo.png")).1 ++ "_" ++ "20250101-000000"
        ++ "_" ++ "aaaaaaaa" ++
        (if (splitext ((fun s : String => s) "photo.png")).2 = "" then ".jpg"
         else (splitext ((fun s : String => s) "photo.png")).2)
    ∧ unique_name (fun s => s) "photo.png" "" "20250101-000000" "aaaaaaaa"
        ≠ unique_name (fun s => s) "photo.png" "" "20250101-000000" "bbbbbbbb" :=
  ⟨unique_name_spec.1 (fun s => s) "photo.png" "" "20250101-000000" "aaaaaaaa",
   unique_name_spec.2 (fun s => s) "photo.png" "" "20250101-000000"
     "aaaaaaaa" "bbbbbbbb" (by decide)⟩

/-- Witness for C9 at a concrete box and text measurement. -/
theorem label_background_geometry_witness :
    draw_label_box (fun _ => ((50 : ℚ), (12 : ℚ))) (100, 100, 300, 300)
        "SampleObject (99.1%)" =
      [DrawCmd.rect (100, 100, 300, 300) (255, 0, 0) 3,
       DrawCmd.fillRect
         (100, max (100 - 12 - 8) 0, 100 + 50 + 8, max ((100 : ℚ) - 12 - 8) 0 + 12 + 8)
         (255, 255, 255),
       DrawCmd.text (100 + 4, max ((100 : ℚ) - 12 - 8) 0 + 4)
         "SampleObject (99.1%)" (255, 0, 0)]
    ∧ (0 : ℚ) ≤ max ((100 : ℚ) - 12 - 8) 0
    ∧ ((12 : ℚ) + 8 ≤ 100 → max ((100 : ℚ) - 12 - 8) 0 + 12 + 8 = 100) :=
  label_background_geometry (fun _ => (50, 12)) 100 100 300 300 50 12
    "SampleObject (99.1%)" rfl

/-- Witness for C10 at concrete malformed entries. -/
theorem render_malformed_tolerant_witness :
    instCmds (fun _ => ((0 : ℚ), (0 : ℚ))) 1 1
        { Name := "X", Confidence := none, Instances := none }
        { BoundingBox := none, Confidence := none } = []
    ∧ renderCmds (fun _ => ((0 : ℚ), (0 : ℚ))) 1 1
        [{ Name := "X", Confidence := none, Instances := none }] = []
    ∧ toPixelBox 1 1 ⟨none, some 1, some 1, some 1⟩
        = toPixelBox 1 1 ⟨some 0, some 1, some 1, some 1⟩
    ∧ toPixelBox 1 1 ⟨some 1, none, some 1, some 1⟩
        = toPixelBox 1 1 ⟨some 1, some 0, some 1, some 1⟩
    ∧ toPixelBox 1 1 ⟨some 1, some 1, none, some 1⟩
        = toPixelBox 1 1 ⟨some 1, some 1, some 0, some 1⟩
    ∧ toPixelBox 1 1 ⟨some 1, some 1, some 1, none⟩
        = toPixelBox 1 1 ⟨some 1, some 1, some 1, some 0⟩
    ∧ labelText { Name := "X", Confidence := none, Instances := none }
        = "X" ++ " (0.0%)" :=
  ⟨render_malformed_tolerant.1 (fun _ => (0, 0)) 1 1
      { Name := "X", Confidence := none, Instances := none }
      { BoundingBox := none, Confidence := none } rfl,
   render_malformed_tolerant.2.1 (fun _ => (0, 0)) 1 1 "X" none,
   render_malformed_tolerant.2.2.1 1 1 (some 1) (some 1) (some 1),
   render_malformed_tolerant.2.2.2.1 1 1 (some 1) (some 1) (some 1),
   render_malformed_tolerant.2.2.2.2.1 1 1 (some 1) (some 1) (some 1),
   render_malformed_tolerant.2.2.2.2.2.1 1 1 (some 1) (some 1) (some 1),
   render_malformed_tolerant.2.2.2.2.2.2 "X" none⟩

end VisionLabel
